import Mathlib

/-!
Verification of the financial-insight core of an expense-tracker service.

The development shallowly embeds the deterministic parts of the service:
the financial-data aggregator (`getFinancialData`), the health scorer
(`calculateFinancialHealth`), the analysis-period resolver
(`resolvePeriod`), the fallback natural-language expense parser
(`parseExpenseWithFallback`), the recommendation generator
(`generateAIRecommendations`), and the database-connection usage of the
three exposed operations (modelled as event traces).

Monetary amounts are embedded as exact rationals (the store computes sums
in exact decimal arithmetic); calendar dates are embedded as
year/month/day triples together with a linear day count, so that interval
arithmetic on dates is arithmetic on `ℤ`.
-/

/-- One entry of the per-category expense breakdown, as produced by the
aggregation query (category name is nullable due to the outer join). -/
structure CategoryEntry where
  category : Option String
  amount : ℚ
  percentage : ℚ
  count : ℕ
deriving DecidableEq, Repr

/-- One entry of the daily spending-trend series. -/
structure TrendEntry where
  date : ℤ
  amount : ℚ
deriving DecidableEq, Repr

/-- One entry of the payment-method breakdown. -/
structure PaymentEntry where
  method : String
  amount : ℚ
  count : ℕ
deriving DecidableEq, Repr

/-- The aggregation result returned by the financial-data aggregator. -/
structure FinData where
  totalIncome : ℚ
  totalExpenses : ℚ
  categoryBreakdown : List CategoryEntry
  dailyTrends : List TrendEntry
  paymentMethods : List PaymentEntry
deriving DecidableEq, Repr

/-- The result of the health scorer: a score (an integer sum of the three
contributions), a status label, and improvement areas. -/
structure HealthResult where
  score : ℕ
  status : String
  areas : List String
deriving DecidableEq, Repr

/-- Embedding of `calculateFinancialHealth`: savings-rate contribution,
concentration contribution from the top breakdown entry, regularity
contribution from the number of daily-trend entries, followed by the
status label derived from the total score. -/
def calculateFinancialHealth (data : FinData) : HealthResult :=
  let savingsRate : ℚ :=
    if data.totalIncome > 0 then
      (data.totalIncome - data.totalExpenses) / data.totalIncome * 100
    else 0
  let s1 : ℕ :=
    if savingsRate ≥ 20 then 40
    else if savingsRate ≥ 10 then 30
    else if savingsRate ≥ 0 then 20
    else 0
  let areas1 : List String :=
    if savingsRate < 20 then ["Increase savings rate"] else []
  let topCategoryPercentage : ℚ :=
    match data.categoryBreakdown with
    | [] => 0
    | c :: _ => c.percentage
  let s2 : ℕ :=
    if topCategoryPercentage ≤ 40 then 30
    else if topCategoryPercentage ≤ 50 then 20
    else 10
  let areas2 : List String :=
    if topCategoryPercentage > 40 then ["Diversify spending across categories"] else []
  let s3 : ℕ := if data.dailyTrends.length ≥ 7 then 30 else 20
  let areas3 : List String :=
    if data.dailyTrends.length < 7 then ["Maintain regular expense tracking"] else []
  let score := s1 + s2 + s3
  let status :=
    if score ≥ 80 then "Excellent"
    else if score ≥ 60 then "Good"
    else if score ≥ 40 then "Fair"
    else "Needs Improvement"
  { score := score, status := status, areas := areas1 ++ areas2 ++ areas3 }

/-- The savings rate as the specification states it. -/
def specSavingsRate (d : FinData) : ℚ :=
  if d.totalIncome > 0 then (d.totalIncome - d.totalExpenses) / d.totalIncome * 100 else 0

/-- Savings contribution as the specification states it. -/
def savingsContribution (d : FinData) : ℕ :=
  if specSavingsRate d ≥ 20 then 40
  else if specSavingsRate d ≥ 10 then 30
  else if specSavingsRate d ≥ 0 then 20
  else 0

/-- The top category's percentage-of-expense, 0 if there are no categories. -/
def topCategoryPct (d : FinData) : ℚ :=
  match d.categoryBreakdown with
  | [] => 0
  | c :: _ => c.percentage

/-- Concentration contribution as the specification states it. -/
def concentrationContribution (d : FinData) : ℕ :=
  if topCategoryPct d ≤ 40 then 30
  else if topCategoryPct d ≤ 50 then 20
  else 10

/-- Regularity contribution as the specification states it. -/
def regularityContribution (d : FinData) : ℕ :=
  if d.dailyTrends.length ≥ 7 then 30 else 20

/-- The status label a given total score maps to, as the specification
states it. -/
def healthStatusOf (score : ℕ) : String :=
  if score ≥ 80 then "Excellent"
  else if score ≥ 60 then "Good"
  else if score ≥ 40 then "Fair"
  else "Needs Improvement"

/-- A concrete aggregation result for the spec's Scenario 2: income 60000,
expense 45000, top category at 35% of expense, and 10 distinct expense
dates. -/
def scenario2Data : FinData :=
  { totalIncome := 60000
    totalExpenses := 45000
    categoryBreakdown := [{ category := some "Shopping", amount := 15750, percentage := 35, count := 12 }]
    dailyTrends :=
      [⟨1, 4500⟩, ⟨2, 4500⟩, ⟨3, 4500⟩, ⟨4, 4500⟩, ⟨5, 4500⟩,
       ⟨6, 4500⟩, ⟨7, 4500⟩, ⟨8, 4500⟩, ⟨9, 4500⟩, ⟨10, 4500⟩]
    paymentMethods := [] }

/-- C1: for every aggregation result, `calculateFinancialHealth` returns a
score equal to the sum of the savings, concentration and regularity
contributions as specified, with the status label determined by the score
thresholds; in particular the Scenario 2 data (income 60000, expense
45000, top category at 35%, 10 distinct expense dates) scores 100 with
status "Excellent". -/
theorem health_score_decomposition :
    (∀ d : FinData,
      (calculateFinancialHealth d).score =
        savingsContribution d + concentrationContribution d + regularityContribution d ∧
      (calculateFinancialHealth d).status = healthStatusOf (calculateFinancialHealth d).score) ∧
    calculateFinancialHealth scenario2Data =
      { score := 100, status := "Excellent", areas := [] } := by
  constructor
  · intro d
    exact ⟨rfl, rfl⟩
  · have hr : ((60000 : ℚ) - 45000) / 60000 * 100 = 25 := by norm_num
    simp only [calculateFinancialHealth, scenario2Data, hr]
    norm_num

/-- Transaction kind: expense or income. -/
inductive TxType where
  | expense
  | income
deriving DecidableEq, Repr

/-- A stored transaction row, with the fields the aggregation queries
read: owner, amount, category name (nullable through the outer join),
kind, payment method (nullable) and transaction date (as a day count). -/
structure Transaction where
  userId : ℕ
  amount : ℚ
  category : Option String
  txType : TxType
  paymentMethod : Option String
  txDate : ℤ
deriving DecidableEq, Repr

/-- The rows of one user falling in the closed date interval — the WHERE
clause shared by all four aggregation queries. -/
def periodRows (db : List Transaction) (userId : ℕ) (startD endD : ℤ) : List Transaction :=
  db.filter (fun t => t.userId = userId ∧ startD ≤ t.txDate ∧ t.txDate ≤ endD)

/-- The expense-kind rows of the period (the queries that additionally
filter on `transaction_type = expense`). -/
def userExpenseRows (db : List Transaction) (userId : ℕ) (startD endD : ℤ) : List Transaction :=
  (periodRows db userId startD endD).filter (fun t => t.txType = TxType.expense)

/-- Sum of the amount column over a list of rows. -/
def sumAmounts (l : List Transaction) : ℚ := (l.map Transaction.amount).sum

/-- Embedding of `getFinancialData`: totals per kind, category breakdown
of expense rows (amount sum, percentage of total expenses, row count,
sorted descending by amount), daily expense trends (sorted ascending by
date) and payment-method breakdown over all rows (missing method
labelled "Not specified", sorted descending by amount). -/
def getFinancialData (db : List Transaction) (userId : ℕ) (startD endD : ℤ) : FinData :=
  { totalIncome :=
      sumAmounts ((periodRows db userId startD endD).filter (fun t => t.txType = TxType.income))
    totalExpenses := sumAmounts (userExpenseRows db userId startD endD)
    categoryBreakdown :=
      List.insertionSort (fun a b => b.amount ≤ a.amount)
        ((((userExpenseRows db userId startD endD).map (fun t => t.category)).dedup).map
          (fun c =>
            { category := c
              amount := sumAmounts ((userExpenseRows db userId startD endD).filter (fun t => t.category = c))
              percentage :=
                if sumAmounts (userExpenseRows db userId startD endD) > 0 then
                  sumAmounts ((userExpenseRows db userId startD endD).filter (fun t => t.category = c)) /
                    sumAmounts (userExpenseRows db userId startD endD) * 100
                else 0
              count := ((userExpenseRows db userId startD endD).filter (fun t => t.category = c)).length }))
    dailyTrends :=
      (List.insertionSort (fun a b => a ≤ b)
          (((userExpenseRows db userId startD endD).map (fun t => t.txDate)).dedup)).map
        (fun d =>
          { date := d
            amount := sumAmounts ((userExpenseRows db userId startD endD).filter (fun t => t.txDate = d)) })
    paymentMethods :=
      List.insertionSort (fun a b => b.amount ≤ a.amount)
        ((((periodRows db userId startD endD).map (fun t => t.paymentMethod)).dedup).map
          (fun m =>
            { method := m.getD "Not specified"
              amount := sumAmounts ((periodRows db userId startD endD).filter (fun t => t.paymentMethod = m))
              count := ((periodRows db userId startD endD).filter (fun t => t.paymentMethod = m)).length })) }

/-- Splitting a mapped sum over a list by a Boolean predicate. -/
lemma sum_map_filter_split {α : Type} (g : α → ℚ) (p : α → Bool) (l : List α) :
    ((l.filter p).map g).sum + ((l.filter (fun a => ! p a)).map g).sum = (l.map g).sum := by
  induction l with
  | nil => simp
  | cons a t ih =>
    by_cases h : p a
    · simp only [List.filter_cons, h, Bool.not_true, if_pos, List.map_cons, List.sum_cons,
        if_neg Bool.false_ne_true]
      linarith [ih]
    · have hb : p a = false := by simpa using h
      simp only [List.filter_cons, hb, Bool.not_false, if_pos, List.map_cons, List.sum_cons,
        if_neg Bool.false_ne_true]
      linarith [ih]

/-- Summing fiber sums over a duplicate-free list of keys covering a list
recovers the total sum. -/
lemma sum_over_keys {α β : Type} [DecidableEq β] (g : α → ℚ) (key : α → β) :
    ∀ (ks : List β) (l : List α), ks.Nodup → (∀ a ∈ l, key a ∈ ks) →
      (ks.map (fun b => ((l.filter (fun a => key a = b)).map g).sum)).sum = (l.map g).sum := by
  intro ks
  induction ks with
  | nil =>
    intro l _ hmem
    have hl : l = [] := by
      apply List.eq_nil_iff_forall_not_mem.mpr
      intro a ha
      simpa using hmem a ha
    subst hl
    simp
  | cons k ks ih =>
    intro l hnd hmem
    have hknotin : k ∉ ks := (List.nodup_cons.mp hnd).1
    have hmap :
        (ks.map (fun b => ((l.filter (fun a => key a = b)).map g).sum)) =
        ks.map (fun b =>
          (((l.filter (fun a => ! (decide (key a = k)))).filter (fun a => key a = b)).map g).sum) := by
      apply List.map_congr_left
      intro b hb
      have hfil :
          (l.filter (fun a => ! (decide (key a = k)))).filter (fun a => key a = b) =
          l.filter (fun a => key a = b) := by
        rw [List.filter_filter]
        apply List.filter_congr
        intro a _
        by_cases hab : key a = b
        · have hbk : b ≠ k := fun hbk => hknotin (hbk ▸ hb)
          simp [hab, hbk]
        · simp [hab]
      rw [hfil]
    rw [List.map_cons, List.sum_cons, hmap,
      ih (l.filter (fun a => ! (decide (key a = k)))) (List.nodup_cons.mp hnd).2
        (by
          intro a ha
          have hmem2 := List.mem_filter.mp ha
          have hk : key a ≠ k := by simpa using hmem2.2
          have := hmem a hmem2.1
          simp only [List.mem_cons] at this
          exact this.resolve_left hk)]
    exact sum_map_filter_split g (fun a => decide (key a = k)) l

/-- C2: for every stored database, user and closed date interval, the
aggregator's `totalExpenses` equals the sum of the amount fields over the
category breakdown it returns for that interval. -/
theorem total_expenses_eq_breakdown_sum
    (db : List Transaction) (userId : ℕ) (startD endD : ℤ) :
    (((getFinancialData db userId startD endD).categoryBreakdown).map CategoryEntry.amount).sum =
      (getFinancialData db userId startD endD).totalExpenses := by
  simp only [getFinancialData]
  have hperm :
      ((List.insertionSort (fun a b : CategoryEntry => b.amount ≤ a.amount)
        ((((userExpenseRows db userId startD endD).map (fun t => t.category)).dedup).map
          (fun c =>
            { category := c
              amount := sumAmounts ((userExpenseRows db userId startD endD).filter (fun t => t.category = c))
              percentage :=
                if sumAmounts (userExpenseRows db userId startD endD) > 0 then
                  sumAmounts ((userExpenseRows db userId startD endD).filter (fun t => t.category = c)) /
                    sumAmounts (userExpenseRows db userId startD endD) * 100
                else 0
              count := ((userExpenseRows db userId startD endD).filter (fun t => t.category = c)).length }))).map
        CategoryEntry.amount).sum =
      (((((userExpenseRows db userId startD endD).map (fun t => t.category)).dedup).map
          (fun c =>
            ({ category := c
               amount := sumAmounts ((userExpenseRows db userId startD endD).filter (fun t => t.category = c))
               percentage :=
                 if sumAmounts (userExpenseRows db userId startD endD) > 0 then
                   sumAmounts ((userExpenseRows db userId startD endD).filter (fun t => t.category = c)) /
                     sumAmounts (userExpenseRows db userId startD endD) * 100
                 else 0
               count := ((userExpenseRows db userId startD endD).filter (fun t => t.category = c)).length } : CategoryEntry))).map
        CategoryEntry.amount).sum := by
    exact ((List.perm_insertionSort _ _).map CategoryEntry.amount).sum_eq
  rw [hperm, List.map_map]
  have := sum_over_keys Transaction.amount Transaction.category
    (((userExpenseRows db userId startD endD).map (fun t => t.category)).dedup)
    (userExpenseRows db userId startD endD)
    (List.nodup_dedup _)
    (by
      intro a ha
      exact List.mem_dedup.mpr (List.mem_map_of_mem _ ha))
  simpa [Function.comp, sumAmounts] using this

/-- The aggregation result for an empty set of matching rows. -/
def emptyFinData : FinData :=
  { totalIncome := 0, totalExpenses := 0, categoryBreakdown := [], dailyTrends := [], paymentMethods := [] }

/-- C5: with zero transactions in the requested period the aggregator
returns zero totals and empty lists, and the health scorer on that result
gives savings contribution 20, concentration contribution 30, regularity
contribution 20, total score 70 and status "Good". -/
theorem empty_period_aggregation_and_health
    (db : List Transaction) (userId : ℕ) (startD endD : ℤ)
    (h : periodRows db userId startD endD = []) :
    getFinancialData db userId startD endD = emptyFinData ∧
    savingsContribution (getFinancialData db userId startD endD) = 20 ∧
    concentrationContribution (getFinancialData db userId startD endD) = 30 ∧
    regularityContribution (getFinancialData db userId startD endD) = 20 ∧
    (calculateFinancialHealth (getFinancialData db userId startD endD)).score = 70 ∧
    (calculateFinancialHealth (getFinancialData db userId startD endD)).status = "Good" := by
  have hdata : getFinancialData db userId startD endD = emptyFinData := by
    simp [getFinancialData, userExpenseRows, h, emptyFinData, sumAmounts, List.insertionSort]
  refine ⟨hdata, ?_, ?_, ?_, ?_, ?_⟩ <;> rw [hdata] <;>
    norm_num [savingsContribution, concentrationContribution, regularityContribution,
      specSavingsRate, topCategoryPct, calculateFinancialHealth, emptyFinData]

/-- Witness for C5 at a concrete empty database. -/
theorem empty_period_aggregation_and_health_witness :
    periodRows [] 1 0 10 = [] ∧
    (calculateFinancialHealth (getFinancialData [] 1 0 10)).score = 70 ∧
    (calculateFinancialHealth (getFinancialData [] 1 0 10)).status = "Good" :=
  ⟨rfl, (empty_period_aggregation_and_health [] 1 0 10 rfl).2.2.2.2.1,
    (empty_period_aggregation_and_health [] 1 0 10 rfl).2.2.2.2.2⟩

/-- Gregorian leap-year test. -/
def isLeap (y : ℕ) : Bool := ((y % 4 == 0) && !(y % 100 == 0)) || (y % 400 == 0)

/-- Number of leap years in 1..n. -/
def leapCount (n : ℕ) : ℕ := n / 4 - n / 100 + n / 400

/-- Length in days of month `m` (1-based) of year `y`. -/
def daysInMonth (y m : ℕ) : ℕ :=
  if m = 2 then (if isLeap y then 29 else 28)
  else if m = 4 ∨ m = 6 ∨ m = 9 ∨ m = 11 then 30
  else 31

/-- Days of year `y` strictly before month `m` (1-based). -/
def daysBeforeMonth (y : ℕ) : ℕ → ℕ
  | 0 => 0
  | 1 => 0
  | m + 2 => daysBeforeMonth y (m + 1) + daysInMonth y (m + 1)

/-- Linear day count of the calendar date `y-m-d` (proleptic Gregorian;
day 1 is January 1 of year 1, which is a Monday). -/
def dayNumber (y m d : ℕ) : ℤ :=
  365 * ((y : ℤ) - 1) + (leapCount (y - 1) : ℤ) + (daysBeforeMonth y m : ℤ) + (d : ℤ)

/-- The month after `y-m`, rolling over the year. -/
def nextMonth (y m : ℕ) : ℕ × ℕ := if m = 12 then (y + 1, 1) else (y, m + 1)

/-- The month before `y-m`, rolling over the year. -/
def prevMonth (y m : ℕ) : ℕ × ℕ := if m = 1 then (y - 1, 12) else (y, m - 1)

lemma leapCount_succ (n : ℕ) :
    leapCount (n + 1) = leapCount n + (if isLeap (n + 1) then 1 else 0) := by
  have hiff : isLeap (n + 1) = true ↔
      ((n + 1) % 4 = 0 ∧ (n + 1) % 100 ≠ 0) ∨ (n + 1) % 400 = 0 := by
    simp [isLeap]
  unfold leapCount
  rw [Nat.succ_div n 4, Nat.succ_div n 100, Nat.succ_div n 400]
  by_cases hL : isLeap (n + 1) = true
  · have hm := hiff.mp hL
    rw [if_pos hL]
    split_ifs <;> omega
  · have hm : ¬ (((n + 1) % 4 = 0 ∧ (n + 1) % 100 ≠ 0) ∨ (n + 1) % 400 = 0) :=
      fun h => hL (hiff.mpr h)
    rw [if_neg hL]
    split_ifs <;> omega

lemma daysBeforeMonth_succ (y m : ℕ) (hm : 1 ≤ m) :
    daysBeforeMonth y (m + 1) = daysBeforeMonth y m + daysInMonth y m := by
  match m, hm with
  | (k + 1), _ => rfl

lemma daysBeforeMonth_twelve (y : ℕ) :
    daysBeforeMonth y 12 = 334 + (if isLeap y then 1 else 0) := by
  show daysBeforeMonth y 11 + daysInMonth y 11 = _
  by_cases h : isLeap y <;>
    simp [daysBeforeMonth, daysInMonth, h]

/-- The first day of the next month is the day after the last day of the
current month. -/
lemma dayNumber_nextMonth (y m : ℕ) (hy : 1 ≤ y) (hm1 : 1 ≤ m) (hm2 : m ≤ 12) :
    dayNumber (nextMonth y m).1 (nextMonth y m).2 1 = dayNumber y m (daysInMonth y m) + 1 := by
  by_cases h12 : m = 12
  · subst h12
    simp only [nextMonth, if_pos]
    show dayNumber (y + 1) 1 1 = dayNumber y 12 (daysInMonth y 12) + 1
    have hdim : daysInMonth y 12 = 31 := rfl
    have hlc : leapCount y = leapCount (y - 1) + (if isLeap y then 1 else 0) := by
      have := leapCount_succ (y - 1)
      rwa [Nat.sub_add_cancel hy] at this
    unfold dayNumber
    rw [hdim, daysBeforeMonth_twelve]
    simp only [Nat.add_sub_cancel, show (1:ℕ) - 1 = 0 from rfl, daysBeforeMonth]
    have hy1 : (1:ℤ) ≤ (y:ℤ) := by exact_mod_cast hy
    by_cases hl : isLeap y <;> simp only [hl, if_pos, if_neg, Bool.false_eq_true] at hlc ⊢ <;>
      push_cast [hlc] <;> ring
  · have hm12 : m ≤ 11 := by omega
    simp only [nextMonth, if_neg h12]
    show dayNumber y (m + 1) 1 = dayNumber y m (daysInMonth y m) + 1
    unfold dayNumber
    rw [daysBeforeMonth_succ y m hm1]
    push_cast
    ring

/-- Every month has at least 28 days. -/
lemma daysInMonth_pos (y m : ℕ) : 28 ≤ daysInMonth y m := by
  unfold daysInMonth
  split_ifs <;> omega

/-- The resolved analysis periods: the current and previous closed
intervals, as day counts. -/
structure Period where
  curStart : ℤ
  curEnd : ℤ
  prevStart : ℤ
  prevEnd : ℤ
deriving DecidableEq, Repr

/-- The four analysis kinds accepted by the insights tool. -/
inductive AnalysisType where
  | weekly
  | monthly
  | yearly
  | custom
deriving DecidableEq, Repr

/-- Embedding of the period-resolution branch of the insights tool.
`today` is the reference date `y-m-d`; for the custom kind the optional
explicit bounds are day counts and both default to today. Out-of-range
day arguments of the source's date constructor (day 0, day-of-month
shifts) are normalised exactly as the source's date library does: a date
is its month's first day number plus the day argument minus one. -/
def resolvePeriod (kind : AnalysisType) (y m d : ℕ) (startD endD : Option ℤ) : Period :=
  match kind with
  | AnalysisType.monthly =>
      { curStart := dayNumber y m 1
        curEnd := dayNumber (nextMonth y m).1 (nextMonth y m).2 1 - 1
        prevStart := dayNumber (prevMonth y m).1 (prevMonth y m).2 1
        prevEnd := dayNumber y m 1 - 1 }
  | AnalysisType.weekly =>
      let t := dayNumber y m d
      let ws := t - t % 7
      { curStart := ws, curEnd := ws + 6, prevStart := ws - 7, prevEnd := ws + 6 - 7 }
  | AnalysisType.yearly =>
      { curStart := dayNumber y 1 1
        curEnd := dayNumber y 12 31
        prevStart := dayNumber (y - 1) 1 1
        prevEnd := dayNumber (y - 1) 12 31 }
  | AnalysisType.custom =>
      let s := startD.getD (dayNumber y m d)
      let e := endD.getD (dayNumber y m d)
      let daysDiff := e - s
      { curStart := s, curEnd := e, prevStart := s - 1 - daysDiff, prevEnd := s - 1 }

/-- Both intervals are well formed, do not overlap, and the previous
interval ends exactly one day before the current one starts. -/
def intervalsOk (p : Period) : Prop :=
  p.curStart ≤ p.curEnd ∧ p.prevStart ≤ p.prevEnd ∧ p.prevEnd < p.curStart ∧
    p.prevEnd + 1 = p.curStart

lemma weekly_intervals_ok (y m d : ℕ) :
    intervalsOk (resolvePeriod AnalysisType.weekly y m d none none) ∧
    (resolvePeriod AnalysisType.weekly y m d none none).curEnd -
        (resolvePeriod AnalysisType.weekly y m d none none).curStart =
      (resolvePeriod AnalysisType.weekly y m d none none).prevEnd -
        (resolvePeriod AnalysisType.weekly y m d none none).prevStart := by
  simp only [resolvePeriod, intervalsOk]
  omega

lemma monthly_intervals_ok (y m d : ℕ) (hy : 2 ≤ y) (hm1 : 1 ≤ m) (hm2 : m ≤ 12) :
    intervalsOk (resolvePeriod AnalysisType.monthly y m d none none) := by
  have hnext := dayNumber_nextMonth y m (by omega) hm1 hm2
  have hdim := daysInMonth_pos y m
  simp only [resolvePeriod, intervalsOk]
  rw [hnext]
  by_cases h1 : m = 1
  · subst h1
    have hprev := dayNumber_nextMonth (y - 1) 12 (by omega) (by norm_num) (by norm_num)
    have hdimp := daysInMonth_pos (y - 1) 12
    have hy1 : y - 1 + 1 = y := by omega
    simp only [nextMonth, reduceIte] at hprev
    rw [hy1] at hprev
    simp only [prevMonth, reduceIte]
    unfold dayNumber at hprev ⊢
    omega
  · have hprev := dayNumber_nextMonth y (m - 1) (by omega) (by omega) (by omega)
    have hdimp := daysInMonth_pos y (m - 1)
    have hne : ¬ (m - 1 = 12) := by omega
    have hm1b : m - 1 + 1 = m := by omega
    simp only [nextMonth, if_neg hne] at hprev
    rw [hm1b] at hprev
    simp only [prevMonth, if_neg h1]
    unfold dayNumber at hprev ⊢
    omega

lemma yearly_intervals_ok (y m d : ℕ) (hy : 2 ≤ y) :
    intervalsOk (resolvePeriod AnalysisType.yearly y m d none none) := by
  have hprev := dayNumber_nextMonth (y - 1) 12 (by omega) (by norm_num) (by norm_num)
  have hy1 : y - 1 + 1 = y := by omega
  simp only [nextMonth, reduceIte] at hprev
  rw [hy1] at hprev
  have h31 : daysInMonth (y - 1) 12 = 31 := rfl
  rw [h31] at hprev
  simp only [resolvePeriod, intervalsOk]
  have hz1 : daysBeforeMonth y 1 = 0 := rfl
  have hz2 : daysBeforeMonth (y - 1) 1 = 0 := rfl
  unfold dayNumber at hprev ⊢
  rw [hz1, hz2]
  omega

/-- C3 (amended): for every reference date, the current and previous
intervals of every non-custom analysis kind are disjoint and the previous
interval ends exactly one day before the current one starts; the weekly
intervals additionally have equal length, while the monthly and yearly
interval lengths are those of the respective calendar months and years. -/
theorem noncustom_periods_disjoint_adjacent (y m d : ℕ)
    (hy : 2 ≤ y) (hm1 : 1 ≤ m) (hm2 : m ≤ 12) :
    intervalsOk (resolvePeriod AnalysisType.weekly y m d none none) ∧
    (resolvePeriod AnalysisType.weekly y m d none none).curEnd -
        (resolvePeriod AnalysisType.weekly y m d none none).curStart =
      (resolvePeriod AnalysisType.weekly y m d none none).prevEnd -
        (resolvePeriod AnalysisType.weekly y m d none none).prevStart ∧
    intervalsOk (resolvePeriod AnalysisType.monthly y m d none none) ∧
    intervalsOk (resolvePeriod AnalysisType.yearly y m d none none) :=
  ⟨(weekly_intervals_ok y m d).1, (weekly_intervals_ok y m d).2,
    monthly_intervals_ok y m d hy hm1 hm2, yearly_intervals_ok y m d hy⟩

/-- Witness for C3 (amended) at the concrete reference date 2025-06-15. -/
theorem noncustom_periods_disjoint_adjacent_witness :
    (2 ≤ 2025 ∧ 1 ≤ 6 ∧ 6 ≤ 12) ∧
    intervalsOk (resolvePeriod AnalysisType.monthly 2025 6 15 none none) :=
  ⟨⟨by norm_num, by norm_num, by norm_num⟩,
    (noncustom_periods_disjoint_adjacent 2025 6 15 (by norm_num) (by norm_num) (by norm_num)).2.2.1⟩

/-- C3 counterexample: with the reference date 2025-03-15 the monthly
current interval (March 2025) is 31 days long while the previous interval
(February 2025) is 28 days long, so the two intervals do not have equal
length. -/
theorem monthly_period_lengths_differ_cex :
    (resolvePeriod AnalysisType.monthly 2025 3 15 none none).curEnd -
        (resolvePeriod AnalysisType.monthly 2025 3 15 none none).curStart = 30 ∧
    (resolvePeriod AnalysisType.monthly 2025 3 15 none none).prevEnd -
        (resolvePeriod AnalysisType.monthly 2025 3 15 none none).prevStart = 27 ∧
    ¬ ((resolvePeriod AnalysisType.monthly 2025 3 15 none none).curEnd -
        (resolvePeriod AnalysisType.monthly 2025 3 15 none none).curStart =
       (resolvePeriod AnalysisType.monthly 2025 3 15 none none).prevEnd -
        (resolvePeriod AnalysisType.monthly 2025 3 15 none none).prevStart) := by
  decide

/-- C4: for every custom analysis with explicit bounds `s ≤ e`, the
previous interval is the equal-length window immediately preceding the
current start; including the spec's Scenario 4 instance, Jan 10 – Jan 20
(11 days) giving Dec 30 – Jan 9 (11 days). -/
theorem custom_period_previous_window :
    (∀ (s e : ℤ), s ≤ e → ∀ (y m d : ℕ),
      (resolvePeriod AnalysisType.custom y m d (some s) (some e)).curStart = s ∧
      (resolvePeriod AnalysisType.custom y m d (some s) (some e)).curEnd = e ∧
      (resolvePeriod AnalysisType.custom y m d (some s) (some e)).prevEnd = s - 1 ∧
      (resolvePeriod AnalysisType.custom y m d (some s) (some e)).prevStart = s - 1 - (e - s) ∧
      (resolvePeriod AnalysisType.custom y m d (some s) (some e)).curEnd -
          (resolvePeriod AnalysisType.custom y m d (some s) (some e)).curStart =
        (resolvePeriod AnalysisType.custom y m d (some s) (some e)).prevEnd -
          (resolvePeriod AnalysisType.custom y m d (some s) (some e)).prevStart ∧
      intervalsOk (resolvePeriod AnalysisType.custom y m d (some s) (some e))) ∧
    ((resolvePeriod AnalysisType.custom 2025 1 10
        (some (dayNumber 2025 1 10)) (some (dayNumber 2025 1 20))).prevStart =
          dayNumber 2024 12 30 ∧
     (resolvePeriod AnalysisType.custom 2025 1 10
        (some (dayNumber 2025 1 10)) (some (dayNumber 2025 1 20))).prevEnd =
          dayNumber 2025 1 9 ∧
     (resolvePeriod AnalysisType.custom 2025 1 10
        (some (dayNumber 2025 1 10)) (some (dayNumber 2025 1 20))).curEnd -
       (resolvePeriod AnalysisType.custom 2025 1 10
        (some (dayNumber 2025 1 10)) (some (dayNumber 2025 1 20))).curStart + 1 = 11 ∧
     (resolvePeriod AnalysisType.custom 2025 1 10
        (some (dayNumber 2025 1 10)) (some (dayNumber 2025 1 20))).prevEnd -
       (resolvePeriod AnalysisType.custom 2025 1 10
        (some (dayNumber 2025 1 10)) (some (dayNumber 2025 1 20))).prevStart + 1 = 11) := by
  constructor
  · intro s e h y m d
    simp only [resolvePeriod, intervalsOk, Option.getD, true_and, and_true]
    omega
  · decide

/-- Witness for C4 at the concrete Scenario 4 bounds. -/
theorem custom_period_previous_window_witness :
    dayNumber 2025 1 10 ≤ dayNumber 2025 1 20 ∧
    intervalsOk (resolvePeriod AnalysisType.custom 2025 1 10
      (some (dayNumber 2025 1 10)) (some (dayNumber 2025 1 20))) :=
  ⟨by decide,
    (custom_period_previous_window.1 (dayNumber 2025 1 10) (dayNumber 2025 1 20)
      (by decide) 2025 1 10).2.2.2.2.2⟩

/-- C8 (code-bug evidence): for a custom analysis whose explicit start is
after its explicit end (Jan 20 to Jan 10), the period resolver raises no
error: it returns intervals, with a previous interval whose start lies
after its end (daysDiff is negative). -/
theorem custom_inverted_range_returns_intervals :
    resolvePeriod AnalysisType.custom 2025 1 20
        (some (dayNumber 2025 1 20)) (some (dayNumber 2025 1 10)) =
      { curStart := dayNumber 2025 1 20
        curEnd := dayNumber 2025 1 10
        prevStart := dayNumber 2025 1 29
        prevEnd := dayNumber 2025 1 19 } ∧
    (resolvePeriod AnalysisType.custom 2025 1 20
        (some (dayNumber 2025 1 20)) (some (dayNumber 2025 1 10))).prevEnd <
      (resolvePeriod AnalysisType.custom 2025 1 20
        (some (dayNumber 2025 1 20)) (some (dayNumber 2025 1 10))).prevStart := by
  decide

/-- ASCII whitespace, as matched by the source's whitespace character
class on the inputs of interest. -/
def isSpaceChar (c : Char) : Bool :=
  c = ' ' || c = '\t' || c = '\n' || c = '\r' || c = '\x0b' || c = '\x0c'

/-- ASCII letter (both classes of the merchant pattern). -/
def isAlphaAscii (c : Char) : Bool :=
  ('a' ≤ c && c ≤ 'z') || ('A' ≤ c && c ≤ 'Z')

/-- Character-list prefix test. -/
def isPrefixOfCL : List Char → List Char → Bool
  | [], _ => true
  | _ :: _, [] => false
  | a :: as, b :: bs => a == b && isPrefixOfCL as bs

/-- Substring containment over character lists (the source's
`String.includes`). -/
def strContains : List Char → List Char → Bool
  | [], needle => needle.isEmpty
  | c :: rest, needle => isPrefixOfCL needle (c :: rest) || strContains rest needle

/-- The comma groups of the amount pattern: greedily consume repetitions
of a comma followed by at least one digit.  The fuel argument (the input
length suffices) only bounds the recursion. -/
def commaGroupsF : ℕ → List Char → List Char × List Char
  | 0, l => ([], l)
  | fuel + 1, ',' :: c :: rest =>
    if c.isDigit then
      let ds := (c :: rest).takeWhile Char.isDigit
      let r1 := (c :: rest).dropWhile Char.isDigit
      let g := commaGroupsF fuel r1
      (',' :: ds ++ g.1, g.2)
    else ([], ',' :: c :: rest)
  | _, l => ([], l)

/-- The optional fractional part of the amount pattern: a dot followed by
at least one digit. -/
def fracPart : List Char → List Char
  | '.' :: c :: rest => if c.isDigit then '.' :: (c :: rest).takeWhile Char.isDigit else []
  | _ => []

/-- Value of a list of decimal digits. -/
def digitsToNat (cs : List Char) : ℕ :=
  cs.foldl (fun n c => 10 * n + (c.toNat - 48)) 0

/-- Numeric value of a digit string with an optional dot-separated
fractional part (the source's float parse, exactly). -/
def parseDecimal (cs : List Char) : ℚ :=
  let intPart := cs.takeWhile (fun ch => ch ≠ '.')
  match cs.dropWhile (fun ch => ch ≠ '.') with
  | _ :: fs => (digitsToNat intPart : ℚ) + (digitsToNat fs : ℚ) / (10 : ℚ) ^ fs.length
  | [] => (digitsToNat intPart : ℚ)

/-- First match of the source's amount pattern — a currency symbol
followed by digits, optional comma groups and an optional fractional
part — returning its numeric value with commas stripped. -/
def extractAmount : List Char → Option ℚ
  | [] => none
  | c :: rest =>
    if c = '₹' then
      let d1 := rest.takeWhile Char.isDigit
      if d1.isEmpty then extractAmount rest
      else
        let r1 := rest.dropWhile Char.isDigit
        let g := commaGroupsF r1.length r1
        let frac := fracPart g.2
        some (parseDecimal ((d1 ++ g.1 ++ frac).filter (fun ch => ch ≠ ',')))
    else extractAmount rest

/-- Strip leading and trailing whitespace. -/
def trimChars (l : List Char) : List Char :=
  ((l.dropWhile isSpaceChar).reverse.dropWhile isSpaceChar).reverse

/-- Continuation of the merchant pattern after a matched "at": at least
one whitespace character, then a greedy capture of letters and
whitespace; when the character after the whitespace run is not a letter
the engine backtracks one whitespace character into the capture, which
therefore needs a run of at least two. -/
def matchAfterAt (l : List Char) : Option (List Char) :=
  let k := (l.takeWhile isSpaceChar).length
  if k = 0 then none
  else
    match l.drop k with
    | c :: rest =>
        if isAlphaAscii c then
          some ((c :: rest).takeWhile (fun x => isAlphaAscii x || isSpaceChar x))
        else if 2 ≤ k then some [l.getD (k - 1) ' '] else none
    | [] => if 2 ≤ k then some [l.getD (k - 1) ' '] else none

/-- Leftmost match of the source's case-insensitive merchant pattern
("at", whitespace, a run of letters and whitespace). -/
def extractMerchant : List Char → Option (List Char)
  | [] => none
  | [_] => none
  | a :: t :: rest =>
    if (a == 'a' || a == 'A') && (t == 't' || t == 'T') then
      match matchAfterAt rest with
      | some cap => some cap
      | none => extractMerchant (t :: rest)
    else extractMerchant (t :: rest)

/-- The fixed category enumeration of the ingestion prompt. -/
def expenseCategories : List String :=
  ["Food & Dining", "Transportation", "Bills & Utilities", "Shopping", "Entertainment",
   "Healthcare", "Education", "Personal Care", "Travel & Vacation", "Family & Kids",
   "Gifts & Donations", "Business", "Investment", "EMI & Loans", "Miscellaneous"]

/-- The fallback parser's keyword-to-category table, in source order. -/
def categoryMap : List (String × String) :=
  [("grocery", "Food & Dining"),
   ("groceries", "Food & Dining"),
   ("food", "Food & Dining"),
   ("restaurant", "Food & Dining"),
   ("taxi", "Transportation"),
   ("auto", "Transportation"),
   ("petrol", "Transportation"),
   ("fuel", "Transportation"),
   ("bill", "Bills & Utilities"),
   ("electricity", "Bills & Utilities"),
   ("mobile", "Bills & Utilities"),
   ("shopping", "Shopping"),
   ("clothes", "Shopping"),
   ("movie", "Entertainment"),
   ("entertainment", "Entertainment"),
   ("doctor", "Healthcare"),
   ("medicine", "Healthcare"),
   ("school", "Education"),
   ("travel", "Travel & Vacation")]

/-- The income keyword set of the fallback parser. -/
def incomeKeywords : List String :=
  ["salary", "income", "payment received", "earned", "bonus"]

/-- The record produced by the fallback parser. -/
structure ParsedExpense where
  amount : ℚ
  description : String
  category : String
  transactionType : String
  merchantName : Option String
  confidence : ℚ
deriving DecidableEq, Repr

/-- Embedding of `parseExpenseWithFallback`: amount from the currency
pattern (default 100), description truncated to 100 characters, first
matching keyword category (default "Miscellaneous"), income exactly when
an income keyword occurs in the lowercased text, merchant from the "at"
pattern, fixed confidence 0.7. -/
def parseExpenseWithFallback (entry : String) : ParsedExpense :=
  let cs := entry.toList
  let lower := cs.map Char.toLower
  { amount := (extractAmount cs).getD 100
    description := if entry.length > 100 then String.mk (cs.take 100) else entry
    category :=
      ((categoryMap.find? (fun kv => strContains lower kv.1.toList)).map Prod.snd).getD
        "Miscellaneous"
    transactionType :=
      if incomeKeywords.any (fun k => strContains lower k.toList) then "income" else "expense"
    merchantName := (extractMerchant cs).map (fun mch => String.mk (trimChars mch))
    confidence := 7 / 10 }

/-- C6: the fallback parser is total: on every input string it returns a
record whose confidence is 0.7, whose category belongs to the fixed
enumeration, whose transaction type is income exactly when an income
keyword occurs in the lowercased text (and expense otherwise), whose
amount is 100 when the currency pattern does not match, and whose
description is the input truncated to at most 100 characters. -/
theorem fallback_parser_total (s : String) :
    (parseExpenseWithFallback s).confidence = 7 / 10 ∧
    (parseExpenseWithFallback s).category ∈ expenseCategories ∧
    ((parseExpenseWithFallback s).transactionType = "income" ∨
      (parseExpenseWithFallback s).transactionType = "expense") ∧
    ((parseExpenseWithFallback s).transactionType = "income" ↔
      incomeKeywords.any (fun k => strContains (s.toList.map Char.toLower) k.toList) = true) ∧
    (extractAmount s.toList = none → (parseExpenseWithFallback s).amount = 100) ∧
    (parseExpenseWithFallback s).description.toList = s.toList.take 100 ∧
    (parseExpenseWithFallback s).description.length ≤ 100 := by
  have hlen : s.toList.length = s.length := rfl
  refine ⟨rfl, ?_, ?_, ?_, ?_, ?_, ?_⟩
  · simp only [parseExpenseWithFallback]
    cases h : categoryMap.find? (fun kv => strContains (s.toList.map Char.toLower) kv.1.toList) with
    | none => simp [h, expenseCategories]
    | some kv =>
      have hmem : kv ∈ categoryMap := List.mem_of_find?_eq_some h
      have hall : ∀ p ∈ categoryMap, p.2 ∈ expenseCategories := by decide
      simp only [h, Option.map_some', Option.getD_some]
      exact hall kv hmem
  · simp only [parseExpenseWithFallback]
    by_cases h : incomeKeywords.any (fun k => strContains (s.toList.map Char.toLower) k.toList) = true
    · left
      rw [if_pos h]
    · right
      rw [if_neg h]
  · simp only [parseExpenseWithFallback]
    by_cases h : incomeKeywords.any (fun k => strContains (s.toList.map Char.toLower) k.toList) = true
    · rw [if_pos h]
      exact iff_of_true rfl h
    · rw [if_neg h]
      exact iff_of_false (by decide) h
  · intro h
    simp only [parseExpenseWithFallback, h, Option.getD_none]
  · simp only [parseExpenseWithFallback]
    by_cases h : s.length > 100
    · rw [if_pos h]
      rfl
    · rw [if_neg h]
      exact (List.take_of_length_le (by rw [hlen]; omega)).symm
  · simp only [parseExpenseWithFallback]
    by_cases h : s.length > 100
    · rw [if_pos h]
      show (s.toList.take 100).length ≤ 100
      rw [List.length_take]
      omega
    · rw [if_neg h]
      omega

/-- Witness for C6 on the empty input (where the currency pattern does
not match, so the amount defaults to 100). -/
theorem fallback_parser_total_witness :
    extractAmount "".toList = none ∧
    (parseExpenseWithFallback "").amount = 100 ∧
    (parseExpenseWithFallback "").confidence = 7 / 10 ∧
    (parseExpenseWithFallback "").category ∈ expenseCategories :=
  ⟨rfl, (fallback_parser_total "").2.2.2.2.1 rfl, (fallback_parser_total "").1,
    (fallback_parser_total "").2.1⟩

/-- C7: Scenario 1 — the fallback parser on
"Paid ₹500 for groceries at BigBazaar" extracts amount 500, category
"Food & Dining", transaction type expense, merchant "BigBazaar" and
confidence 0.7. -/
theorem fallback_parser_scenario1 :
    parseExpenseWithFallback "Paid ₹500 for groceries at BigBazaar" =
      { amount := 500
        description := "Paid ₹500 for groceries at BigBazaar"
        category := "Food & Dining"
        transactionType := "expense"
        merchantName := some "BigBazaar"
        confidence := 7 / 10 } := by
  rfl

/-- The fixed fallback recommendations substituted when the collaborator
answers but its output yields no usable lines. -/
def fallbackRecsEmptyOutput : List String :=
  ["Monitor your top spending categories and set monthly limits",
   "Consider using more UPI payments for better expense tracking",
   "Look for opportunities to reduce food delivery expenses by cooking at home"]

/-- The fixed fallback recommendations substituted when the collaborator
call throws. -/
def fallbackRecsOnError : List String :=
  ["Monitor your spending patterns regularly",
   "Set monthly budgets for each expense category",
   "Consider investing your savings in SIP or mutual funds"]

/-- Split a character list at newline characters. -/
def splitLines : List Char → List (List Char)
  | [] => [[]]
  | c :: rest =>
    if c = '\n' then [] :: splitLines rest
    else
      match splitLines rest with
      | [] => [[c]]
      | l :: ls => (c :: l) :: ls

/-- Remove a leading run of digits followed by a dot and optional
whitespace (the source's first line-cleanup replacement). -/
def stripLeadingNumberDot (l : List Char) : List Char :=
  let ds := l.takeWhile Char.isDigit
  if ds.isEmpty then l
  else
    match l.drop ds.length with
    | '.' :: rest => rest.dropWhile isSpaceChar
    | _ => l

/-- Remove a leading dash or asterisk bullet and optional whitespace (the
source's second line-cleanup replacement). -/
def stripLeadingBullet (l : List Char) : List Char :=
  match l with
  | c :: rest => if c = '-' || c = '*' then rest.dropWhile isSpaceChar else l
  | [] => []

/-- Post-processing of the collaborator's text: split into lines, keep
nonblank ones, strip numbering and bullets and trim, keep lines longer
than 10 characters, and take the first five. -/
def processAgentText (text : String) : List String :=
  (((((splitLines text.toList).filter
        (fun l => (trimChars l).length > 0)).map
      (fun l => trimChars (stripLeadingBullet (stripLeadingNumberDot l)))).filter
    (fun l => l.length > 10)).take 5).map String.mk

/-- Embedding of `generateAIRecommendations`. The collaborator is `none`
when no agent is available (the source then returns an empty list inside
the try block); otherwise the call either throws (`Except.error`, caught
and answered with the fixed error fallback) or returns text, whose
processed lines are returned when nonempty, the fixed empty-output
fallback otherwise. -/
def generateAIRecommendations (agent : Option (Except Unit String)) : List String :=
  match agent with
  | none => []
  | some (Except.error _) => fallbackRecsOnError
  | some (Except.ok text) =>
      let recs := processAgentText text
      if recs.length > 0 then recs else fallbackRecsEmptyOutput

/-- C9 counterexample: when the text-generation collaborator is absent,
the recommendation generator returns the empty list, not a non-empty set
of fallback recommendations. -/
theorem recommendations_empty_when_agent_absent_cex :
    generateAIRecommendations none = [] := rfl

/-- C9 (amended): the generator never fails; when an agent is available,
a throwing call is answered with the fixed error-fallback list and a call
whose output processes to nothing is answered with the fixed
empty-output-fallback list, and the result is never empty; but when the
agent is absent the generator returns the empty list. -/
theorem recommendations_fallback_when_agent_present :
    (∀ e : Unit, generateAIRecommendations (some (Except.error e)) = fallbackRecsOnError) ∧
    (∀ t : String, processAgentText t = [] →
      generateAIRecommendations (some (Except.ok t)) = fallbackRecsEmptyOutput) ∧
    (∀ outc : Except Unit String, generateAIRecommendations (some outc) ≠ []) ∧
    fallbackRecsOnError ≠ [] ∧ fallbackRecsEmptyOutput ≠ [] ∧
    generateAIRecommendations none = [] := by
  refine ⟨fun e => rfl, ?_, ?_, by decide, by decide, rfl⟩
  · intro t h
    simp [generateAIRecommendations, h]
  · intro outc
    cases outc with
    | error e =>
      show fallbackRecsOnError ≠ []
      decide
    | ok t =>
      simp only [generateAIRecommendations]
      by_cases h : (processAgentText t).length > 0
      · rw [if_pos h]
        intro hnil
        rw [hnil] at h
        simp at h
      · rw [if_neg h]
        decide

/-- Witness for C9 (amended) at concrete collaborator outcomes. -/
theorem recommendations_fallback_witness :
    generateAIRecommendations (some (Except.error ())) = fallbackRecsOnError ∧
    processAgentText "" = [] ∧
    generateAIRecommendations (some (Except.ok "")) = fallbackRecsEmptyOutput :=
  ⟨recommendations_fallback_when_agent_present.1 (), rfl,
    recommendations_fallback_when_agent_present.2.1 "" rfl⟩

/-- Database-connection events of one tool invocation. -/
inductive DbEvent where
  | openPool
  | query (i : ℕ) (ok : Bool)
  | closePool
deriving DecidableEq, Repr

/-- Run a sequence of queries against an oracle deciding which succeed;
the first failing query throws, ending the sequence. -/
def runQueries (oracle : ℕ → Bool) : List ℕ → List DbEvent × Bool
  | [] => ([], true)
  | i :: rest =>
    if oracle i then
      let r := runQueries oracle rest
      (DbEvent.query i true :: r.1, r.2)
    else ([DbEvent.query i false], false)

/-- Open the pool, run a body of queries, and close the pool before
returning only when every query succeeded; a thrown error is caught by
the error branch, which returns a failure result without closing. -/
def wrapPool (r : List DbEvent × Bool) : Bool × List DbEvent :=
  if r.2 then (true, DbEvent.openPool :: r.1 ++ [DbEvent.closePool])
  else (false, DbEvent.openPool :: r.1)

/-- Connection trace of the insights tool: four aggregation queries for
the current period, four more when comparison is requested, then the
close; the catch branch returns without closing. -/
def insightsExecute (includeComparison : Bool) (oracle : ℕ → Bool) : Bool × List DbEvent :=
  wrapPool (runQueries oracle (if includeComparison then [0, 1, 2, 3, 4, 5, 6, 7] else [0, 1, 2, 3]))

/-- Connection trace of the expense-viewing tool: the rows, summary and
top-categories queries, then the close; the catch branch returns without
closing. -/
def viewExpensesExecute (oracle : ℕ → Bool) : Bool × List DbEvent :=
  wrapPool (runQueries oracle [0, 1, 2])

/-- Connection trace of the ingestion tool: the category lookup (a
missing category throws after the lookup succeeds), then the insert, then
the close; every catch path returns without closing. -/
def addExpenseExecute (categoryFound : Bool) (oracle : ℕ → Bool) : Bool × List DbEvent :=
  if oracle 0 then
    if categoryFound then
      if oracle 1 then
        (true, [DbEvent.openPool, DbEvent.query 0 true, DbEvent.query 1 true, DbEvent.closePool])
      else (false, [DbEvent.openPool, DbEvent.query 0 true, DbEvent.query 1 false])
    else (false, [DbEvent.openPool, DbEvent.query 0 true])
  else (false, [DbEvent.openPool, DbEvent.query 0 false])

lemma runQueries_no_pool_events (oracle : ℕ → Bool) (idxs : List ℕ) :
    ∀ ev ∈ (runQueries oracle idxs).1, ev ≠ DbEvent.openPool ∧ ev ≠ DbEvent.closePool := by
  induction idxs with
  | nil =>
    intro ev hev
    simp [runQueries] at hev
  | cons i rest ih =>
    intro ev hev
    simp only [runQueries] at hev
    by_cases h : oracle i = true
    · rw [if_pos h] at hev
      simp only [List.mem_cons] at hev
      rcases hev with h1 | h2
      · subst h1
        exact ⟨by simp, by simp⟩
      · exact ih ev h2
    · rw [if_neg h] at hev
      simp only [List.mem_singleton] at hev
      subst hev
      exact ⟨by simp, by simp⟩

lemma wrapPool_spec (r : List DbEvent × Bool)
    (h : ∀ ev ∈ r.1, ev ≠ DbEvent.openPool ∧ ev ≠ DbEvent.closePool) :
    ((wrapPool r).1 = true →
      (wrapPool r).2.head? = some DbEvent.openPool ∧
      (wrapPool r).2.getLast? = some DbEvent.closePool) ∧
    ((wrapPool r).1 = false →
      DbEvent.openPool ∈ (wrapPool r).2 ∧ DbEvent.closePool ∉ (wrapPool r).2) := by
  unfold wrapPool
  by_cases hb : r.2 = true
  · rw [if_pos hb]
    constructor
    · intro
      refine ⟨rfl, ?_⟩
      show (DbEvent.openPool :: r.1 ++ [DbEvent.closePool]).getLast? = some DbEvent.closePool
      rw [show DbEvent.openPool :: r.1 ++ [DbEvent.closePool] =
            (DbEvent.openPool :: r.1) ++ [DbEvent.closePool] from rfl]
      exact List.getLast?_concat _
    · intro hfalse
      simp at hfalse
  · rw [if_neg hb]
    constructor
    · intro htrue
      simp at htrue
    · intro
      constructor
      · exact List.mem_cons_self _ _
      · intro hmem
        simp only [List.mem_cons] at hmem
        rcases hmem with h1 | h2
        · exact absurd h1.symm (by simp)
        · exact (h _ h2).2 rfl

/-- C10 counterexample: an insights invocation whose first aggregation
query fails ends in the error branch with `success = false`, and its
trace opens the connection pool but never closes it. -/
theorem connection_leak_on_failure_cex :
    (insightsExecute true (fun _ => false)).1 = false ∧
    DbEvent.openPool ∈ (insightsExecute true (fun _ => false)).2 ∧
    DbEvent.closePool ∉ (insightsExecute true (fun _ => false)).2 := by
  decide

/-- C10 (amended): in each of the three exposed operations, a successful
invocation opens the pool first and closes it last before returning; but
an invocation that ends in the error branch (returning `success = false`)
leaves the opened pool unclosed. -/
theorem connection_release_on_success_only
    (ic : Bool) (oracle : ℕ → Bool) (categoryFound : Bool) :
    (((insightsExecute ic oracle).1 = true →
        (insightsExecute ic oracle).2.head? = some DbEvent.openPool ∧
        (insightsExecute ic oracle).2.getLast? = some DbEvent.closePool) ∧
      ((insightsExecute ic oracle).1 = false →
        DbEvent.openPool ∈ (insightsExecute ic oracle).2 ∧
        DbEvent.closePool ∉ (insightsExecute ic oracle).2)) ∧
    (((viewExpensesExecute oracle).1 = true →
        (viewExpensesExecute oracle).2.head? = some DbEvent.openPool ∧
        (viewExpensesExecute oracle).2.getLast? = some DbEvent.closePool) ∧
      ((viewExpensesExecute oracle).1 = false →
        DbEvent.openPool ∈ (viewExpensesExecute oracle).2 ∧
        DbEvent.closePool ∉ (viewExpensesExecute oracle).2)) ∧
    (((addExpenseExecute categoryFound oracle).1 = true →
        (addExpenseExecute categoryFound oracle).2.head? = some DbEvent.openPool ∧
        (addExpenseExecute categoryFound oracle).2.getLast? = some DbEvent.closePool) ∧
      ((addExpenseExecute categoryFound oracle).1 = false →
        DbEvent.openPool ∈ (addExpenseExecute categoryFound oracle).2 ∧
        DbEvent.closePool ∉ (addExpenseExecute categoryFound oracle).2)) := by
  refine ⟨wrapPool_spec _ (runQueries_no_pool_events oracle _),
    wrapPool_spec _ (runQueries_no_pool_events oracle _), ?_⟩
  by_cases h0 : oracle 0 = true <;> by_cases hc : categoryFound = true <;>
    by_cases h1 : oracle 1 = true <;>
      simp [addExpenseExecute, h0, hc, h1]

/-- Witness for C10 (amended) at an all-successful oracle and at an
all-failing one. -/
theorem connection_release_on_success_only_witness :
    (insightsExecute true (fun _ => true)).1 = true ∧
    (insightsExecute true (fun _ => true)).2.head? = some DbEvent.openPool ∧
    (insightsExecute true (fun _ => true)).2.getLast? = some DbEvent.closePool ∧
    (viewExpensesExecute (fun _ => false)).1 = false ∧
    DbEvent.closePool ∉ (viewExpensesExecute (fun _ => false)).2 :=
  ⟨rfl,
    ((connection_release_on_success_only true (fun _ => true) true).1.1 rfl).1,
    ((connection_release_on_success_only true (fun _ => true) true).1.1 rfl).2,
    rfl,
    ((connection_release_on_success_only true (fun _ => false) true).2.1.2 rfl).2⟩
